import Mathlib

/-!
Verification development for the Flask CVRP service (src/app.py).

The HTTP handler, the input validation loop, the stand-in distance matrix
generator and the result projector are embedded directly from the source.
The optimization core itself (OR-Tools routing solver) is not part of the
repository's own code; following the specification, it is modelled as a
cheapest-insertion route construction followed by a strict-improvement
local search over relocate / swap / 2-opt moves (operating on one route
list per vehicle).  Definitions carrying a `Modelled from the spec:` doc
comment belong to that modelled part; everything else is translated from
src/app.py.
-/

namespace VRP

/-- One entry of the request's customer_data array: a LocationID and a
Demand, both parsed with int(...) by the source, hence arbitrary integers. -/
structure CustomerRow where
  locationID : Int
  demand : Int
deriving Repr, DecidableEq

/-- The JSON body accepted by the /solve_vrp endpoint: customer_data,
vehicle_capacities and an optional depot_index defaulting to 0. -/
structure VrpRequest where
  customer_data : List CustomerRow
  vehicle_capacities : List Int
  depot_index : Nat
deriving Repr, DecidableEq

/-- One element of the routes array of a success response.  Python's float
division by 1000 is modelled by exact rational division. -/
structure RouteInfo where
  vehicle_id : Nat
  route_nodes : List Nat
  total_distance : ℚ
  total_load : Int
deriving Repr, DecidableEq

instance : Inhabited RouteInfo := ⟨⟨0, [], 0, 0⟩⟩

/-- Body of a 200 response.  objective_value is none for the NO_SOLUTION
shape, which carries no objective_value key in the source. -/
structure VrpResponse where
  solution_status : String
  objective_value : Option ℚ
  routes : List RouteInfo
deriving Repr, DecidableEq

instance : Inhabited VrpResponse := ⟨⟨"", none, []⟩⟩

/-- Result of handle_vrp_request: either a 200 JSON body, or the except
branch's body (error string plus a solution_status field) with its HTTP
status code. -/
inductive HandleResult where
  | ok (resp : VrpResponse)
  | err (msg : String) (status : String) (http : Nat)
deriving Repr, DecidableEq

/-- True when the handler answered on the non-exception path. -/
def HandleResult.isOk : HandleResult → Bool
  | .ok _ => true
  | .err _ _ _ => false

/-- True when the result is the source's error shape: a body holding an
error string and solution_status "ERROR", served with HTTP status 500. -/
def HandleResult.isError500 : HandleResult → Bool
  | .ok _ => false
  | .err _ st code => st == "ERROR" && code == 500

/-- The 200 body of a handler result (a default body on the error path). -/
def HandleResult.respOf : HandleResult → VrpResponse
  | .ok r => r
  | .err _ _ _ => default

/-- Row i of the stand-in distance matrix: 0 on the diagonal, the mirror of
an already-built row below the diagonal, and a pseudo-random draw rng i j
above it.  rng models the source's random.randint(500, 50000) stream. -/
def buildRowD (rng : Nat → Nat → Int) (m : List (List Int)) (i n : Nat) : List Int :=
  (List.range n).map (fun j =>
    if i = j then 0
    else if j < i then (m.getD j []).getD i 0
    else rng i j)

/-- Rows 0..i-1 of the stand-in matrix, each row built from the rows that
precede it (the source builds the matrix row by row for the same reason). -/
def dmAux (rng : Nat → Nat → Int) (n : Nat) : Nat → List (List Int)
  | 0 => []
  | i + 1 => dmAux rng n i ++ [buildRowD rng (dmAux rng n i) i n]

/-- The source's create_distance_matrix: returns [[0]] when
num_locations <= 1, otherwise the square symmetric matrix with zero
diagonal and pseudo-random off-diagonal entries. -/
def create_distance_matrix (rng : Nat → Nat → Int) (num_locations : Nat) : List (List Int) :=
  if num_locations ≤ 1 then [[0]]
  else dmAux rng num_locations num_locations

/-- The data dictionary assembled by handle_vrp_request and passed to
solve_vrp. -/
structure VrpData where
  distance_matrix : List (List Int)
  demands : List Int
  num_locations : Nat
  num_vehicles : Nat
  depot_index : Nat
  vehicle_capacities : List Int
deriving Repr, DecidableEq

/-- A solver-side solution: one ordered list of customer indices per
vehicle, the depot implicit at both ends of each route. -/
abbrev Solution := List (List Nat)

/-- Cost of the arc from location i to location j read off the distance
matrix (out-of-range reads default to 0, matching a total embedding). -/
def arcCost (dist : List (List Int)) (i j : Nat) : Int :=
  (dist.getD i []).getD j 0

/-- Sum of the demands of the customers on a route (the capacity dimension's
cumulative value at the end of the route). -/
def routeLoad (demands : List Int) (route : List Nat) : Int :=
  (route.map (fun c => demands.getD c 0)).sum

/-- Arc-cost total of the walk that starts at cur, visits the route's
customers in order and returns to the depot; this is the accumulation
performed by the projector's while loop. -/
def routeDistance (dist : List (List Int)) (depot : Nat) : Nat → List Nat → Int
  | cur, [] => arcCost dist cur depot
  | cur, c :: rest => arcCost dist cur c + routeDistance dist depot c rest

/-- Total arc cost of all routes of a solution, each starting and ending at
the depot; models the solver's objective value. -/
def totalCost (dist : List (List Int)) (depot : Nat) (sol : Solution) : Int :=
  (sol.map (routeDistance dist depot depot)).sum

/-- The customer locations of a model with n locations: every index other
than the configured depot. -/
def customersOf (n depot : Nat) : List Nat :=
  (List.range n).filter (fun i => i ≠ depot)

/-- One comparison step of the cheapest-candidate scan: keep the incumbent
unless the new candidate is strictly cheaper. -/
def chooseMinStep (key : Nat → Int) (best : Option Nat) (c : Nat) : Option Nat :=
  match best with
  | none => some c
  | some b => if key c < key b then some c else some b

/-- Modelled from the spec: the element of the candidate list with the
least key, earliest element winning ties (lowest customer index, since
candidate lists are kept in ascending order). -/
def chooseMin (key : Nat → Int) (l : List Nat) : Option Nat :=
  l.foldl (chooseMinStep key) none

/-- Modelled from the spec: the unrouted customer appended next by cheapest
insertion — least arc cost from the route's current tail among the
customers whose demand fits the remaining capacity. -/
def pickNext (dist : List (List Int)) (demands : List Int) (tail : Nat)
    (remCap : Int) (unrouted : List Nat) : Option Nat :=
  chooseMin (arcCost dist tail) (unrouted.filter (fun c => demands.getD c 0 ≤ remCap))

/-- Modelled from the spec: grow one vehicle's route by repeatedly appending
the cheapest feasible unrouted customer; returns the route and the
customers still unrouted.  fuel bounds the recursion by the number of
unrouted customers. -/
def buildRoute (dist : List (List Int)) (demands : List Int) (cap : Int) :
    Nat → Nat → Int → List Nat → List Nat × List Nat
  | 0, _, _, unrouted => ([], unrouted)
  | fuel + 1, tail, load, unrouted =>
    match pickNext dist demands tail (cap - load) unrouted with
    | none => ([], unrouted)
    | some c =>
      let grown := buildRoute dist demands cap fuel c (load + demands.getD c 0) (unrouted.erase c)
      (c :: grown.1, grown.2)

/-- Modelled from the spec: route construction over the fleet in order, each
vehicle's route grown from the depot until it can accept no further
customer. -/
def buildAll (dist : List (List Int)) (demands : List Int) (depot : Nat) :
    List Int → List Nat → Solution × List Nat
  | [], unrouted => ([], unrouted)
  | cap :: caps, unrouted =>
    let r := buildRoute dist demands cap unrouted.length depot 0 unrouted
    let rest := buildAll dist demands depot caps r.2
    (r.1 :: rest.1, rest.2)

/-- Modelled from the spec: buildInitialSolution — greedy cheapest-insertion
construction seeded from the depot; fails (InfeasibleCapacity) when
customers remain unrouted after the whole fleet is exhausted. -/
def buildInitialSolution (data : VrpData) : Option Solution :=
  let customers := customersOf data.num_locations data.depot_index
  let built := buildAll data.distance_matrix data.demands data.depot_index
    data.vehicle_capacities customers
  if built.2.isEmpty then some built.1 else none

/-- Remove the element at position i of a route (the route unchanged when i
is out of range). -/
def eraseAt (l : List Nat) (i : Nat) : List Nat :=
  l.take i ++ l.drop (i + 1)

/-- Insert a at position i of a route (at the end when i exceeds the
length). -/
def insertAt (l : List Nat) (i : Nat) (a : Nat) : List Nat :=
  l.take i ++ a :: l.drop i

/-- The route of vehicle r in a solution. -/
def getRoute (sol : Solution) (r : Nat) : List Nat :=
  sol.getD r []

/-- Modelled from the spec: the relocate neighborhood move — take the
customer at position p1 of route r1 and re-insert it at position p2 of
route r2. -/
def relocate (sol : Solution) (r1 p1 r2 p2 : Nat) : Solution :=
  let c := (getRoute sol r1).getD p1 0
  if r1 = r2 then
    sol.set r1 (insertAt (eraseAt (getRoute sol r1) p1) p2 c)
  else
    (sol.set r1 (eraseAt (getRoute sol r1) p1)).set r2 (insertAt (getRoute sol r2) p2 c)

/-- Modelled from the spec: the swap neighborhood move — exchange the
customers at position p1 of route r1 and position p2 of route r2. -/
def swapMove (sol : Solution) (r1 p1 r2 p2 : Nat) : Solution :=
  let a := (getRoute sol r1).getD p1 0
  let b := (getRoute sol r2).getD p2 0
  if r1 = r2 then
    sol.set r1 (((getRoute sol r1).set p1 b).set p2 a)
  else
    (sol.set r1 ((getRoute sol r1).set p1 b)).set r2 ((getRoute sol r2).set p2 a)

/-- Modelled from the spec: the 2-opt neighborhood move — reverse the
contiguous segment of route r between positions p1 and p2 inclusive. -/
def twoOpt (sol : Solution) (r p1 p2 : Nat) : Solution :=
  let route := getRoute sol r
  sol.set r (route.take p1 ++ ((route.drop p1).take (p2 + 1 - p1)).reverse ++ route.drop (p2 + 1))

/-- All pairs (r, p) with r a vehicle of the solution and p the position of
a customer on its route. -/
def routeIdxPairs (sol : Solution) : List (Nat × Nat) :=
  (List.range sol.length).flatMap (fun r =>
    (List.range (getRoute sol r).length).map (fun p => (r, p)))

/-- All pairs (r, p) with p an insertion position of route r (one past the
end allowed). -/
def insertTargets (sol : Solution) : List (Nat × Nat) :=
  (List.range sol.length).flatMap (fun r =>
    (List.range ((getRoute sol r).length + 1)).map (fun p => (r, p)))

/-- Modelled from the spec: the relocate neighborhood of a solution. -/
def relocations (sol : Solution) : List Solution :=
  (routeIdxPairs sol).flatMap (fun a =>
    (insertTargets sol).map (fun b => relocate sol a.1 a.2 b.1 b.2))

/-- Modelled from the spec: the swap neighborhood of a solution. -/
def swaps (sol : Solution) : List Solution :=
  (routeIdxPairs sol).flatMap (fun a =>
    (routeIdxPairs sol).map (fun b => swapMove sol a.1 a.2 b.1 b.2))

/-- Modelled from the spec: the 2-opt neighborhood of a solution (segments
p1 ≤ p2 within one route). -/
def twoOpts (sol : Solution) : List Solution :=
  (List.range sol.length).flatMap (fun r =>
    (List.range (getRoute sol r).length).flatMap (fun p1 =>
      (List.range ((getRoute sol r).length - p1)).map (fun k => twoOpt sol r p1 (p1 + k))))

/-- Modelled from the spec: the three neighborhoods in their fixed priority
order — relocate, then swap, then 2-opt. -/
def neighbors (sol : Solution) : List Solution :=
  relocations sol ++ swaps sol ++ twoOpts sol

/-- Modelled from the spec (Solution Evaluator's isFeasible): every route's
load is within its vehicle's capacity. -/
def feasibleB (demands caps : List Int) (sol : Solution) : Bool :=
  (sol.zip caps).all (fun rc => routeLoad demands rc.1 ≤ rc.2)

/-- Modelled from the spec: one local-search iteration — the first move of
the prioritized neighborhoods that keeps every route feasible and strictly
decreases total cost, or none when no such move exists. -/
def improveStep (data : VrpData) (sol : Solution) : Option Solution :=
  (neighbors sol).find? (fun s =>
    feasibleB data.demands data.vehicle_capacities s &&
      totalCost data.distance_matrix data.depot_index s <
        totalCost data.distance_matrix data.depot_index sol)

/-- Modelled from the spec: the local-search improvement loop, the
wall-clock budget modelled by the fuel bound on accepted moves; stops early
when no accepting move exists. -/
def improve (data : VrpData) : Nat → Solution → Solution
  | 0, sol => sol
  | fuel + 1, sol =>
    match improveStep data sol with
    | none => sol
    | some s => improve data fuel s

/-- The source's solve_vrp: construction followed by guided local search
under a time budget; returns none exactly when construction finds no
feasible assignment.  The OR-Tools call is modelled from the spec by
buildInitialSolution and improve. -/
def solve_vrp (fuel : Nat) (data : VrpData) : Option Solution :=
  (buildInitialSolution data).map (improve data fuel)

/-- The source's get_solution_details: NO_SOLUTION with an empty route list
when the solver produced nothing, otherwise one routes entry per vehicle
with the depot skipped in route_nodes, the accumulated arc cost divided by
1000, and the capacity dimension's end-of-route cumulative load.  The
OR-Tools accessors are modelled by routeDistance, routeLoad and
totalCost. -/
def get_solution_details (data : VrpData) (solution : Option Solution) : VrpResponse :=
  match solution with
  | none => { solution_status := "NO_SOLUTION", objective_value := none, routes := [] }
  | some sol =>
    { solution_status := "OPTIMAL"
      objective_value := some ((totalCost data.distance_matrix data.depot_index sol : ℚ) / 1000)
      routes := (List.range data.num_vehicles).map (fun v =>
        let route := getRoute sol v
        { vehicle_id := v + 1
          route_nodes := route.filter (fun nd => nd ≠ data.depot_index)
          total_distance :=
            (routeDistance data.distance_matrix data.depot_index data.depot_index route : ℚ) / 1000
          total_load := routeLoad data.demands route }) }

/-- The source's demand-preparation loop: demands starts as [0] * n and each
customer_data row writes its Demand at its LocationID, the first row with
LocationID outside (0, n) raising ValueError (carried as the offending
id). -/
def buildDemands (n : Nat) : List CustomerRow → List Int → Except Int (List Int)
  | [], ds => .ok ds
  | row :: rest, ds =>
    if 0 < row.locationID ∧ row.locationID < (n : Int) then
      buildDemands n rest (ds.set row.locationID.toNat row.demand)
    else
      .error row.locationID

/-- The source's handle_vrp_request with the solver abstracted: prepare the
demand vector (failing fast with the except branch's 500 body on a bad
LocationID), assemble the data dictionary with the generated distance
matrix, run the solver, and project the result. -/
def mkData (rng : Nat → Nat → Int) (req : VrpRequest) (demands : List Int) : VrpData :=
  { distance_matrix := create_distance_matrix rng (req.customer_data.length + 1)
    demands := demands
    num_locations := req.customer_data.length + 1
    num_vehicles := req.vehicle_capacities.length
    depot_index := req.depot_index
    vehicle_capacities := req.vehicle_capacities }

def handleCore (solver : VrpData → Option Solution) (rng : Nat → Nat → Int)
    (req : VrpRequest) : HandleResult :=
  let num_customers := req.customer_data.length
  let num_locations := num_customers + 1
  match buildDemands num_locations req.customer_data (List.replicate num_locations 0) with
  | .error loc =>
    .err ("LocationID " ++ toString loc ++ " invalid; must be between 1 and "
      ++ toString num_customers ++ ".") "ERROR" 500
  | .ok demands =>
    let data := mkData rng req demands
    .ok (get_solution_details data (solver data))

/-- The source's handle_vrp_request, its solver being solve_vrp under the
configured time budget. -/
def handle_vrp_request (rng : Nat → Nat → Int) (fuel : Nat) (req : VrpRequest) : HandleResult :=
  handleCore (solve_vrp fuel) rng req

/-- Stated from the spec's words, for comparison with the projector's
accumulated total_distance: the sum of the arc costs along the depot, the
route's customers in order, and the depot again. -/
def specArcSum (dist : List (List Int)) (depot : Nat) (route : List Nat) : Int :=
  (((depot :: route).zip (route ++ [depot])).map (fun p => arcCost dist p.1 p.2)).sum

/-- Total customer demand of a model: the demands summed over all non-depot
locations. -/
def totalDemandOf (data : VrpData) : Int :=
  routeLoad data.demands (customersOf data.num_locations data.depot_index)

/-- A constant stand-in stream for random.randint used by concrete
evaluations. -/
def rngConst : Nat → Nat → Int := fun _ _ => 1000

/-- Concrete request with a configured depot index of 2: two valid
customers, one vehicle. -/
def reqDepot2 : VrpRequest := ⟨[⟨1, 1⟩, ⟨2, 1⟩], [10], 2⟩

/-- Concrete request with zero customers and a single negative
capacity. -/
def reqNegCap : VrpRequest := ⟨[], [-1], 0⟩

/-- Concrete request whose total demand 3 exceeds the total fleet capacity
(-5) + 5 = 0. -/
def reqOverDemand : VrpRequest := ⟨[⟨1, 3⟩], [-5, 5], 0⟩

/-- Concrete request with one customer and an empty vehicle fleet. -/
def reqNoVehicles : VrpRequest := ⟨[⟨1, 5⟩], [], 0⟩

/-- Concrete request whose second row's LocationID 7 is out of range for
two customers. -/
def reqBadLoc : VrpRequest := ⟨[⟨1, 5⟩, ⟨7, 2⟩], [10], 0⟩

/-- Concrete request with depot index 2 and a customer row assigning demand
7 to location 2 — the depot itself. -/
def reqDemandAtDepot : VrpRequest := ⟨[⟨1, 1⟩, ⟨2, 7⟩, ⟨3, 1⟩], [20], 2⟩

/-- Concrete model with zero customers and one vehicle of capacity -1. -/
def dataNegCap : VrpData :=
  ⟨create_distance_matrix rngConst 1, [0], 1, 1, 0, [-1]⟩

/-- Concrete well-formed request: three customers with demands 2, 3, 4 and
one vehicle of capacity 10. -/
def reqPlain : VrpRequest := ⟨[⟨1, 2⟩, ⟨2, 3⟩, ⟨3, 4⟩], [10], 0⟩

/-- The model assembled for reqPlain under the constant stream. -/
def dataPlain : VrpData := ⟨create_distance_matrix rngConst 4, [0, 2, 3, 4], 4, 1, 0, [10]⟩

/-- Concrete request with two customers of demand 6 each and one vehicle of
capacity 10 — no single vehicle can serve both. -/
def reqInfeasible : VrpRequest := ⟨[⟨1, 6⟩, ⟨2, 6⟩], [10], 0⟩

/-- Concrete request with two unit-demand customers and two vehicles of
capacity 5. -/
def reqTwoVeh : VrpRequest := ⟨[⟨1, 1⟩, ⟨2, 1⟩], [5, 5], 0⟩

theorem length_dmAux (rng : Nat → Nat → Int) (n i : Nat) :
    (dmAux rng n i).length = i := by
  induction i with
  | zero => rfl
  | succ i ih => simp [dmAux, ih]

theorem length_buildRowD (rng : Nat → Nat → Int) (m : List (List Int)) (i n : Nat) :
    (buildRowD rng m i n).length = n := by
  simp [buildRowD]

theorem getD_map_range (f : Nat → Int) (n i : Nat) (hi : i < n) (d : Int) :
    (((List.range n).map f).getD i d) = f i := by
  rw [List.getD_eq_getElem _ _ (by simpa using hi)]
  simp

theorem dmAux_getD (rng : Nat → Nat → Int) (n : Nat) :
    ∀ i k, k < i → (dmAux rng n i).getD k [] = buildRowD rng (dmAux rng n k) k n := by
  intro i
  induction i with
  | zero => intro k hk; omega
  | succ i ih =>
    intro k hk
    rcases Nat.lt_or_ge k i with h | h
    · rw [dmAux, List.getD_append _ _ _ _ (by simpa [length_dmAux] using h)]
      exact ih k h
    · have hk' : k = i := by omega
      subst hk'
      rw [dmAux, List.getD_append_right _ _ _ _ (by simp [length_dmAux])]
      simp [length_dmAux]

theorem buildRowD_diag (rng : Nat → Nat → Int) (m : List (List Int)) (i n : Nat)
    (hi : i < n) : (buildRowD rng m i n).getD i 0 = 0 := by
  rw [buildRowD, getD_map_range _ _ _ hi]
  simp

/-- Every value looked up with default 0 in a list of non-negatives is
non-negative. -/
theorem getD_zero_nonneg (l : List Int) (h : ∀ x ∈ l, 0 ≤ x) (k : Nat) :
    0 ≤ l.getD k 0 := by
  induction l generalizing k with
  | nil => simp [List.getD]
  | cons a t ih =>
    cases k with
    | zero => simpa using h a (by simp)
    | succ k => simpa using ih (fun x hx => h x (by simp [hx])) k

theorem getD_nil_nonneg (L : List (List Int))
    (h : ∀ row ∈ L, ∀ x ∈ row, 0 ≤ x) (k : Nat) :
    ∀ x ∈ L.getD k [], 0 ≤ x := by
  induction L generalizing k with
  | nil => simp [List.getD]
  | cons a t ih =>
    cases k with
    | zero =>
      simpa using h a (by simp)
    | succ k =>
      simpa using ih (fun r hr => h r (by simp [hr])) k

theorem dmAux_nonneg (rng : Nat → Nat → Int) (hrng : ∀ i j, 0 ≤ rng i j) (n : Nat) :
    ∀ i, ∀ row ∈ dmAux rng n i, ∀ x ∈ row, 0 ≤ x := by
  intro i
  induction i with
  | zero => simp [dmAux]
  | succ i ih =>
    intro row hrow x hx
    rw [dmAux] at hrow
    rcases List.mem_append.1 hrow with h | h
    · exact ih row h x hx
    · have hrow' : row = buildRowD rng (dmAux rng n i) i n := by simpa using h
      subst hrow'
      rw [buildRowD] at hx
      rcases List.mem_map.1 hx with ⟨j, _, rfl⟩
      by_cases hij : i = j
      · simp [hij]
      · by_cases hji : j < i
        · simp only [if_neg hij, if_pos hji]
          exact getD_zero_nonneg _ (getD_nil_nonneg _ ih j) i
        · simpa [hij, hji] using hrng i j

theorem dmAux_row_length (rng : Nat → Nat → Int) (n : Nat) :
    ∀ i, ∀ row ∈ dmAux rng n i, row.length = n := by
  intro i
  induction i with
  | zero => simp [dmAux]
  | succ i ih =>
    intro row hrow
    rw [dmAux] at hrow
    rcases List.mem_append.1 hrow with h | h
    · exact ih row h
    · have : row = buildRowD rng (dmAux rng n i) i n := by simpa using h
      rw [this, length_buildRowD]

/-- C9 counterexample: at location count 0 the generator returns the 1-by-1
matrix [[0]], not a 0-by-0 matrix, so the claim fails at n = 0. -/
theorem c9_matrix_contract_cx :
    (create_distance_matrix rngConst 0).length = 1 ∧ (1 : Nat) ≠ 0 :=
  ⟨rfl, by decide⟩

/-- C9 (amended): for every location count n ≥ 1 the generator returns an
n-by-n matrix of non-negative entries with zero diagonal, the entries drawn
from any randint stream producing non-negative values. -/
theorem c9_matrix_contract_amended (rng : Nat → Nat → Int) (n : Nat)
    (h1 : 1 ≤ n) (h2 : ∀ i j, 0 ≤ rng i j) :
    (create_distance_matrix rng n).length = n ∧
    (∀ row ∈ create_distance_matrix rng n, row.length = n) ∧
    (∀ i, i < n → ((create_distance_matrix rng n).getD i []).getD i 0 = 0) ∧
    (∀ row ∈ create_distance_matrix rng n, ∀ x ∈ row, 0 ≤ x) := by
  by_cases hn : n ≤ 1
  · have h : n = 1 := by omega
    subst h
    refine ⟨rfl, ?_, ?_, ?_⟩
    · intro row hrow
      simp [create_distance_matrix] at hrow
      simp [hrow]
    · intro i hi
      have h0 : i = 0 := by omega
      subst h0
      rfl
    · intro row hrow x hx
      simp [create_distance_matrix] at hrow
      subst hrow
      simp at hx
      simp [hx]
  · rw [create_distance_matrix, if_neg hn]
    refine ⟨length_dmAux rng n n, dmAux_row_length rng n n, ?_, dmAux_nonneg rng h2 n n⟩
    intro i hi
    rw [dmAux_getD rng n n i hi, buildRowD_diag rng _ i n hi]

/-- Witness for C9 (amended) at the constant stream and n = 2. -/
theorem c9_matrix_contract_amended_witness :
    (create_distance_matrix rngConst 2).length = 2 ∧
    ((create_distance_matrix rngConst 2).getD 1 []).getD 1 0 = 0 :=
  ⟨(c9_matrix_contract_amended rngConst 2 (by decide)
      (fun i j => by simp [rngConst])).1,
    (c9_matrix_contract_amended rngConst 2 (by decide)
      (fun i j => by simp [rngConst])).2.2.1 1 (by decide)⟩

theorem getD_set_ne_generic {α : Type} (L : List α) (j i : Nat) (a d : α) (h : j ≠ i) :
    (L.set j a).getD i d = L.getD i d := by
  induction L generalizing i j with
  | nil => simp
  | cons x t ih =>
    cases j with
    | zero =>
      cases i with
      | zero => omega
      | succ i => simp [List.set]
    | succ j =>
      cases i with
      | zero => simp [List.set]
      | succ i => simpa [List.set] using ih j i (by omega)

theorem getD_set_self_generic {α : Type} (L : List α) (j : Nat) (a d : α) (h : j < L.length) :
    (L.set j a).getD j d = a := by
  rw [List.getD_eq_getElem _ _ (by simpa using h)]
  exact List.getElem_set_self (by simpa using h)

theorem getD_replicate_zero (n i : Nat) : (List.replicate n (0 : Int)).getD i 0 = 0 := by
  induction n generalizing i with
  | zero => simp [List.getD]
  | succ n ih =>
    cases i with
    | zero => simp [List.replicate]
    | succ i => simp [List.replicate, ih i]

theorem buildDemands_ok_spec (n : Nat) :
    ∀ (rows : List CustomerRow) (ds0 ds : List Int),
      buildDemands n rows ds0 = .ok ds →
      ds = rows.foldl (fun d r => d.set r.locationID.toNat r.demand) ds0 ∧
        ∀ r ∈ rows, 0 < r.locationID ∧ r.locationID < (n : Int) := by
  intro rows
  induction rows with
  | nil =>
    intro ds0 ds h
    simp [buildDemands] at h
    simp [h]
  | cons r rest ih =>
    intro ds0 ds h
    rw [buildDemands] at h
    by_cases hv : 0 < r.locationID ∧ r.locationID < (n : Int)
    · rw [if_pos hv] at h
      obtain ⟨h1, h2⟩ := ih _ _ h
      refine ⟨by simpa using h1, ?_⟩
      intro x hx
      rcases List.mem_cons.1 hx with hx | hx
      · exact hx ▸ hv
      · exact h2 x hx
    · rw [if_neg hv] at h
      exact absurd h (by simp)

theorem buildDemands_ok_of_valid (n : Nat) :
    ∀ (rows : List CustomerRow) (ds0 : List Int),
      (∀ r ∈ rows, 0 < r.locationID ∧ r.locationID < (n : Int)) →
      buildDemands n rows ds0 =
        .ok (rows.foldl (fun d r => d.set r.locationID.toNat r.demand) ds0) := by
  intro rows
  induction rows with
  | nil => intro ds0 _; simp [buildDemands]
  | cons r rest ih =>
    intro ds0 hval
    rw [buildDemands, if_pos (hval r (by simp))]
    simpa using ih _ (fun x hx => hval x (by simp [hx]))

theorem foldl_set_getD (i : Nat) :
    ∀ (rows : List CustomerRow) (ds0 : List Int),
      (∀ r ∈ rows, 0 < r.locationID ∧ r.locationID < (ds0.length : Int)) →
      (rows.foldl (fun d r => d.set r.locationID.toNat r.demand) ds0).getD i 0 =
        match rows.reverse.find? (fun r => r.locationID == (i : Int)) with
        | some r => r.demand
        | none => ds0.getD i 0 := by
  intro rows
  induction rows with
  | nil => intro ds0 _; simp
  | cons r rest ih =>
    intro ds0 hval
    have h0 : 0 < r.locationID := (hval r (by simp)).1
    have hlt : r.locationID < (ds0.length : Int) := (hval r (by simp)).2
    have hlen : (ds0.set r.locationID.toNat r.demand).length = ds0.length :=
      List.length_set ds0 _ _
    rw [List.foldl_cons,
      ih (ds0.set r.locationID.toNat r.demand)
        (fun x hx => by
          rw [hlen]
          exact hval x (by simp [hx])),
      List.reverse_cons, List.find?_append]
    cases hf : rest.reverse.find? (fun x => x.locationID == (i : Int)) with
    | some rr => simp
    | none =>
      by_cases hi : r.locationID = (i : Int)
      · have hb : (r.locationID == (i : Int)) = true := by simpa using hi
        have hnat : r.locationID.toNat = i := by omega
        rw [hnat, getD_set_self_generic _ _ _ _ (by omega)]
        simp [List.find?, hb]
      · have hb : (r.locationID == (i : Int)) = false := by simpa using hi
        have hnat : r.locationID.toNat ≠ i := by omega
        rw [getD_set_ne_generic _ _ _ _ _ hnat]
        simp [List.find?, hb]

/-- C10: the demand vector handed to the solver holds, at every index, the
Demand of the last customer_data row naming that index (later duplicates
overwriting earlier ones, any integer Demand accepted unchecked), and 0 at
every index no row names. -/
theorem c10_demand_vector (rows : List CustomerRow) (ds : List Int)
    (h : buildDemands (rows.length + 1) rows (List.replicate (rows.length + 1) 0) = .ok ds) :
    ∀ i : Nat, ds.getD i 0 =
      ((rows.reverse.find? (fun r => r.locationID == (i : Int))).map CustomerRow.demand).getD 0 := by
  intro i
  obtain ⟨rfl, hval⟩ := buildDemands_ok_spec _ rows _ ds h
  rw [foldl_set_getD i rows _ (by simpa using hval)]
  cases hf : rows.reverse.find? (fun r => r.locationID == (i : Int)) with
  | some r => simp
  | none => simp [getD_replicate_zero]

/-- Witness for C10 on three rows with a duplicate LocationID and a
negative Demand: the handed vector is [0, 7, -3, 0]. -/
theorem c10_demand_vector_witness :
    (([0, 7, -3, 0] : List Int).getD 1 0 =
      ((([⟨1, 5⟩, ⟨2, -3⟩, ⟨1, 7⟩] : List CustomerRow).reverse.find?
        (fun r => r.locationID == (1 : Int))).map CustomerRow.demand).getD 0) ∧
    (([0, 7, -3, 0] : List Int).getD 2 0 =
      ((([⟨1, 5⟩, ⟨2, -3⟩, ⟨1, 7⟩] : List CustomerRow).reverse.find?
        (fun r => r.locationID == (2 : Int))).map CustomerRow.demand).getD 0) ∧
    (([0, 7, -3, 0] : List Int).getD 3 0 =
      ((([⟨1, 5⟩, ⟨2, -3⟩, ⟨1, 7⟩] : List CustomerRow).reverse.find?
        (fun r => r.locationID == (3 : Int))).map CustomerRow.demand).getD 0) :=
  ⟨c10_demand_vector [⟨1, 5⟩, ⟨2, -3⟩, ⟨1, 7⟩] [0, 7, -3, 0] (by rfl) 1,
    c10_demand_vector [⟨1, 5⟩, ⟨2, -3⟩, ⟨1, 7⟩] [0, 7, -3, 0] (by rfl) 2,
    c10_demand_vector [⟨1, 5⟩, ⟨2, -3⟩, ⟨1, 7⟩] [0, 7, -3, 0] (by rfl) 3⟩

/-- C4: a request containing any customer_data row whose LocationID lies
outside [1, N-1] is answered with the HTTP 500 error body (an error string
plus solution_status ERROR) no matter which solver is plugged in — the
optimization is never consulted. -/
theorem c4_invalid_location_fail_fast (solver : VrpData → Option Solution)
    (rng : Nat → Nat → Int) (req : VrpRequest)
    (h : ∃ row ∈ req.customer_data,
      ¬(1 ≤ row.locationID ∧ row.locationID ≤ (req.customer_data.length : Int))) :
    (handleCore solver rng req).isError500 = true := by
  obtain ⟨row, hmem, hbad⟩ := h
  cases hb : buildDemands (req.customer_data.length + 1) req.customer_data
      (List.replicate (req.customer_data.length + 1) 0) with
  | error l => simp [handleCore, hb, HandleResult.isError500]
  | ok ds =>
    exfalso
    have hval := (buildDemands_ok_spec _ _ _ _ hb).2 row hmem
    push_cast at hval
    omega

/-- Witness for C4: the request with LocationID 7 among two customers is
rejected with the 500 error shape for an arbitrary solver. -/
theorem c4_invalid_location_fail_fast_witness :
    (handleCore (fun _ => none) rngConst reqBadLoc).isError500 = true :=
  c4_invalid_location_fail_fast (fun _ => none) rngConst reqBadLoc (by decide)

/-- C6 counterexample: with depot_index 2 the request assigning demand 7 to
location 2 — the depot — is accepted (no error response) and the demand
vector handed to the solver carries 7 at the depot index. -/
theorem c6_depot_demand_cx :
    (handle_vrp_request rngConst 5 reqDemandAtDepot).isOk = true ∧
    buildDemands 4 [⟨1, 1⟩, ⟨2, 7⟩, ⟨3, 1⟩] (List.replicate 4 0) = .ok [0, 1, 7, 1] ∧
    reqDemandAtDepot.depot_index = 2 ∧
    ([0, 1, 7, 1] : List Int).getD 2 0 ≠ 0 := by
  refine ⟨?_, by rfl, rfl, by decide⟩
  rfl

/-- C6 (amended): for every accepted request the demand at index 0 is 0 and
every row's LocationID is non-zero — so the depot-demand guarantee holds
for the default depot index 0, the only index the validation protects. -/
theorem c6_depot_demand_amended (rows : List CustomerRow) (ds : List Int)
    (h : buildDemands (rows.length + 1) rows (List.replicate (rows.length + 1) 0) = .ok ds) :
    ds.getD 0 0 = 0 ∧ ∀ r ∈ rows, r.locationID ≠ 0 := by
  obtain ⟨rfl, hval⟩ := buildDemands_ok_spec _ rows _ ds h
  constructor
  · rw [foldl_set_getD 0 rows _ (by simpa using hval)]
    simp only [Nat.cast_zero]
    have hnone : rows.reverse.find? (fun r => r.locationID == (0 : Int)) = none := by
      rw [List.find?_eq_none]
      intro x hx
      have := (hval x (by simpa using hx)).1
      simp only [beq_iff_eq]
      omega
    rw [hnone]
    exact getD_replicate_zero _ _
  · intro r hr
    have := (hval r hr).1
    omega

/-- Witness for C6 (amended) on a single valid row. -/
theorem c6_depot_demand_amended_witness :
    ([0, 4] : List Int).getD 0 0 = 0 ∧
    ∀ r ∈ ([⟨1, 4⟩] : List CustomerRow), r.locationID ≠ 0 :=
  c6_depot_demand_amended [⟨1, 4⟩] [0, 4] (by rfl)

theorem foldl_chooseMinStep_mem (key : Nat → Int) :
    ∀ (l : List Nat) (acc : Option Nat) (c : Nat),
      l.foldl (chooseMinStep key) acc = some c → acc = some c ∨ c ∈ l := by
  intro l
  induction l with
  | nil => intro acc c h; exact Or.inl h
  | cons a t ih =>
    intro acc c h
    rw [List.foldl_cons] at h
    rcases ih _ c h with h' | h'
    · cases acc with
      | none =>
        simp [chooseMinStep] at h'
        exact Or.inr (by simp [h'])
      | some b =>
        by_cases hk : key a < key b
        · simp [chooseMinStep, hk] at h'
          exact Or.inr (by simp [h'])
        · simp [chooseMinStep, hk] at h'
          exact Or.inl (by simp [h'])
    · exact Or.inr (by simp [h'])

theorem chooseMin_mem (key : Nat → Int) (l : List Nat) (c : Nat)
    (h : chooseMin key l = some c) : c ∈ l := by
  rcases foldl_chooseMinStep_mem key l none c h with h' | h'
  · exact absurd h' (by simp)
  · exact h'

theorem pickNext_spec (dist : List (List Int)) (demands : List Int) (tail : Nat)
    (remCap : Int) (unrouted : List Nat) (c : Nat)
    (h : pickNext dist demands tail remCap unrouted = some c) :
    c ∈ unrouted ∧ demands.getD c 0 ≤ remCap := by
  have hm := chooseMin_mem _ _ _ h
  rw [List.mem_filter] at hm
  exact ⟨hm.1, by simpa using hm.2⟩

theorem buildRoute_perm (dist : List (List Int)) (demands : List Int) (cap : Int) :
    ∀ (fuel tail : Nat) (load : Int) (unrouted : List Nat),
      List.Perm
        ((buildRoute dist demands cap fuel tail load unrouted).1 ++
          (buildRoute dist demands cap fuel tail load unrouted).2)
        unrouted := by
  intro fuel
  induction fuel with
  | zero => intro tail load unrouted; simp [buildRoute]
  | succ fuel ih =>
    intro tail load unrouted
    cases hp : pickNext dist demands tail (cap - load) unrouted with
    | none => simp [buildRoute, hp]
    | some c =>
      have hc : c ∈ unrouted := (pickNext_spec _ _ _ _ _ _ hp).1
      simp only [buildRoute, hp]
      exact ((ih c (load + demands.getD c 0) (unrouted.erase c)).cons c).trans
        (List.perm_cons_erase hc).symm

theorem buildRoute_load (dist : List (List Int)) (demands : List Int) (cap : Int) :
    ∀ (fuel tail : Nat) (load : Int) (unrouted : List Nat),
      load + routeLoad demands (buildRoute dist demands cap fuel tail load unrouted).1 ≤ cap ∨
        (buildRoute dist demands cap fuel tail load unrouted).1 = [] := by
  intro fuel
  induction fuel with
  | zero => intro tail load unrouted; right; simp [buildRoute]
  | succ fuel ih =>
    intro tail load unrouted
    cases hp : pickNext dist demands tail (cap - load) unrouted with
    | none => right; simp [buildRoute, hp]
    | some c =>
      left
      have hd : demands.getD c 0 ≤ cap - load := (pickNext_spec _ _ _ _ _ _ hp).2
      simp only [buildRoute, hp]
      rcases ih c (load + demands.getD c 0) (unrouted.erase c) with h | h
      · simp only [routeLoad, List.map_cons, List.sum_cons]
        simp only [routeLoad] at h
        linarith
      · rw [h]
        simp only [routeLoad, List.map_cons, List.map_nil, List.sum_cons, List.sum_nil, add_zero]
        linarith

theorem buildAll_perm (dist : List (List Int)) (demands : List Int) (depot : Nat) :
    ∀ (caps : List Int) (unrouted : List Nat),
      List.Perm
        ((buildAll dist demands depot caps unrouted).1.flatten ++
          (buildAll dist demands depot caps unrouted).2)
        unrouted := by
  intro caps
  induction caps with
  | nil => intro unrouted; simp [buildAll]
  | cons cap caps ih =>
    intro unrouted
    simp only [buildAll, List.flatten_cons, List.append_assoc]
    exact (List.Perm.append_left _ (ih _)).trans
      (buildRoute_perm dist demands cap unrouted.length depot 0 unrouted)

theorem buildAll_length (dist : List (List Int)) (demands : List Int) (depot : Nat) :
    ∀ (caps : List Int) (unrouted : List Nat),
      (buildAll dist demands depot caps unrouted).1.length = caps.length := by
  intro caps
  induction caps with
  | nil => intro unrouted; simp [buildAll]
  | cons cap caps ih => intro unrouted; simp [buildAll, ih]

theorem buildAll_feasible (dist : List (List Int)) (demands : List Int) (depot : Nat) :
    ∀ (caps : List Int) (unrouted : List Nat),
      (∀ c ∈ caps, 0 ≤ c) →
      feasibleB demands caps (buildAll dist demands depot caps unrouted).1 = true := by
  intro caps
  induction caps with
  | nil => intro unrouted _; simp [buildAll, feasibleB]
  | cons cap caps ih =>
    intro unrouted hc
    simp only [buildAll, feasibleB, List.zip_cons_cons, List.all_cons, Bool.and_eq_true,
      decide_eq_true_eq]
    refine ⟨?_, ih _ (fun c hmem => hc c (by simp [hmem]))⟩
    rcases buildRoute_load dist demands cap unrouted.length depot 0 unrouted with h | h
    · linarith
    · rw [h]
      simp [routeLoad]
      exact hc cap (by simp)

theorem buildInitialSolution_spec (data : VrpData) (sol : Solution)
    (h : buildInitialSolution data = some sol) :
    List.Perm sol.flatten (customersOf data.num_locations data.depot_index) ∧
      sol.length = data.vehicle_capacities.length := by
  rw [buildInitialSolution] at h
  by_cases he : (buildAll data.distance_matrix data.demands data.depot_index
      data.vehicle_capacities (customersOf data.num_locations data.depot_index)).2.isEmpty
  · rw [if_pos he] at h
    have hsol : sol = (buildAll data.distance_matrix data.demands data.depot_index
        data.vehicle_capacities (customersOf data.num_locations data.depot_index)).1 := by
      simpa using h.symm
    have hempty : (buildAll data.distance_matrix data.demands data.depot_index
        data.vehicle_capacities (customersOf data.num_locations data.depot_index)).2 = [] :=
      List.isEmpty_iff.1 he
    constructor
    · have := buildAll_perm data.distance_matrix data.demands data.depot_index
        data.vehicle_capacities (customersOf data.num_locations data.depot_index)
      rw [hempty, List.append_nil] at this
      exact hsol ▸ this
    · rw [hsol]
      exact buildAll_length _ _ _ _ _
  · rw [if_neg he] at h
    exact absurd h (by simp)

theorem buildInitialSolution_feasible (data : VrpData) (sol : Solution)
    (h : buildInitialSolution data = some sol)
    (hc : ∀ c ∈ data.vehicle_capacities, 0 ≤ c) :
    feasibleB data.demands data.vehicle_capacities sol = true := by
  rw [buildInitialSolution] at h
  by_cases he : (buildAll data.distance_matrix data.demands data.depot_index
      data.vehicle_capacities (customersOf data.num_locations data.depot_index)).2.isEmpty
  · rw [if_pos he] at h
    have hsol : sol = (buildAll data.distance_matrix data.demands data.depot_index
        data.vehicle_capacities (customersOf data.num_locations data.depot_index)).1 := by
      simpa using h.symm
    rw [hsol]
    exact buildAll_feasible _ _ _ _ _ hc
  · rw [if_neg he] at h
    exact absurd h (by simp)

theorem count_cons_split (x : Nat) (xs : List Nat) (c : Nat) :
    (x :: xs).count c = [x].count c + xs.count c := by
  rw [← List.singleton_append, List.count_append]

theorem count_flatten_set (c : Nat) :
    ∀ (L : Solution) (i : Nat), i < L.length → ∀ r : List Nat,
      (L.set i r).flatten.count c + (L.getD i []).count c =
        L.flatten.count c + r.count c := by
  intro L
  induction L with
  | nil => intro i hi; simp at hi
  | cons a t ih =>
    intro i hi r
    cases i with
    | zero =>
      simp only [List.set_cons_zero, List.flatten_cons, List.count_append, List.getD_cons_zero]
      omega
    | succ i =>
      simp only [List.set_cons_succ, List.flatten_cons, List.count_append, List.getD_cons_succ]
      have := ih i (by simpa using hi) r
      omega

theorem getD_cons_drop (l : List Nat) (i : Nat) (h : i < l.length) :
    l.drop i = l.getD i 0 :: l.drop (i + 1) := by
  rw [List.getD_eq_getElem _ _ h]
  exact List.drop_eq_getElem_cons h

theorem count_eraseAt (l : List Nat) (i : Nat) (h : i < l.length) (c : Nat) :
    (eraseAt l i).count c + [l.getD i 0].count c = l.count c := by
  conv_rhs => rw [← List.take_append_drop i l, getD_cons_drop l i h,
    ← List.singleton_append]
  simp only [eraseAt, List.count_append]
  omega

theorem count_insertAt (l : List Nat) (i a c : Nat) :
    (insertAt l i a).count c = l.count c + [a].count c := by
  conv_rhs => rw [← List.take_append_drop i l]
  simp only [insertAt]
  conv_lhs => rw [← List.singleton_append]
  simp only [List.count_append]
  omega

theorem count_set_list (l : List Nat) (i : Nat) (h : i < l.length) (a c : Nat) :
    (l.set i a).count c + [l.getD i 0].count c = l.count c + [a].count c := by
  rw [List.set_eq_take_cons_drop a (by simpa using h)]
  conv_rhs => rw [← List.take_append_drop i l, getD_cons_drop l i h,
    ← List.singleton_append]
  conv_lhs => rw [← List.singleton_append]
  simp only [List.count_append]
  omega

theorem count_twoOptSeg (l : List Nat) (p1 p2 : Nat) (hle : p1 ≤ p2) (c : Nat) :
    (l.take p1 ++ ((l.drop p1).take (p2 + 1 - p1)).reverse ++ l.drop (p2 + 1)).count c
      = l.count c := by
  have hdd : (l.drop p1).drop (p2 + 1 - p1) = l.drop (p2 + 1) := by
    rw [List.drop_drop]
    congr 1
    omega
  have hsplit : ((l.drop p1).take (p2 + 1 - p1)).count c +
      ((l.drop p1).drop (p2 + 1 - p1)).count c = (l.drop p1).count c := by
    rw [← List.count_append, List.take_append_drop]
  rw [hdd] at hsplit
  conv_rhs => rw [← List.take_append_drop p1 l]
  rw [List.count_append, List.count_append, List.count_append, List.count_reverse]
  omega

theorem relocate_length (sol : Solution) (r1 p1 r2 p2 : Nat) :
    (relocate sol r1 p1 r2 p2).length = sol.length := by
  simp only [relocate]
  split <;> simp

theorem swapMove_length (sol : Solution) (r1 p1 r2 p2 : Nat) :
    (swapMove sol r1 p1 r2 p2).length = sol.length := by
  simp only [swapMove]
  split <;> simp

theorem twoOpt_length (sol : Solution) (r p1 p2 : Nat) :
    (twoOpt sol r p1 p2).length = sol.length := by
  simp [twoOpt]

theorem relocate_count (sol : Solution) (r1 p1 r2 p2 : Nat)
    (h1 : r1 < sol.length) (hp1 : p1 < (getRoute sol r1).length) (h2 : r2 < sol.length)
    (c : Nat) :
    (relocate sol r1 p1 r2 p2).flatten.count c = sol.flatten.count c := by
  by_cases hr : r1 = r2
  · simp only [relocate, if_pos hr]
    have hset := count_flatten_set c sol r1 h1
      (insertAt (eraseAt (getRoute sol r1) p1) p2 ((getRoute sol r1).getD p1 0))
    have hins := count_insertAt (eraseAt (getRoute sol r1) p1) p2
      ((getRoute sol r1).getD p1 0) c
    have hera := count_eraseAt (getRoute sol r1) p1 hp1 c
    simp only [getRoute] at *
    omega
  · simp only [relocate, if_neg hr]
    have hlen2 : r2 < (sol.set r1 (eraseAt (getRoute sol r1) p1)).length := by
      simpa using h2
    have hset2 := count_flatten_set c (sol.set r1 (eraseAt (getRoute sol r1) p1)) r2 hlen2
      (insertAt (getRoute sol r2) p2 ((getRoute sol r1).getD p1 0))
    have hget : (sol.set r1 (eraseAt (getRoute sol r1) p1)).getD r2 [] = sol.getD r2 [] :=
      getD_set_ne_generic _ _ _ _ _ hr
    have hset1 := count_flatten_set c sol r1 h1 (eraseAt (getRoute sol r1) p1)
    have hins := count_insertAt (getRoute sol r2) p2 ((getRoute sol r1).getD p1 0) c
    have hera := count_eraseAt (getRoute sol r1) p1 hp1 c
    rw [show ((sol.set r1 (eraseAt (getRoute sol r1) p1)).getD r2 []) = sol.getD r2 []
      from hget] at hset2
    simp only [getRoute] at *
    omega

theorem swapMove_count (sol : Solution) (r1 p1 r2 p2 : Nat)
    (h1 : r1 < sol.length) (hp1 : p1 < (getRoute sol r1).length)
    (h2 : r2 < sol.length) (hp2 : p2 < (getRoute sol r2).length) (c : Nat) :
    (swapMove sol r1 p1 r2 p2).flatten.count c = sol.flatten.count c := by
  by_cases hr : r1 = r2
  · simp only [swapMove, if_pos hr]
    subst hr
    have hset := count_flatten_set c sol r1 h1
      (((getRoute sol r1).set p1 ((getRoute sol r1).getD p2 0)).set p2
        ((getRoute sol r1).getD p1 0))
    have e1 := count_set_list (getRoute sol r1) p1 hp1 ((getRoute sol r1).getD p2 0) c
    have hlenp2 : p2 < ((getRoute sol r1).set p1 ((getRoute sol r1).getD p2 0)).length := by
      simpa using hp2
    have e2 := count_set_list ((getRoute sol r1).set p1 ((getRoute sol r1).getD p2 0)) p2
      hlenp2 ((getRoute sol r1).getD p1 0) c
    by_cases hp : p1 = p2
    · subst hp
      have hg : ((getRoute sol r1).set p1 ((getRoute sol r1).getD p1 0)).getD p1 0 =
          (getRoute sol r1).getD p1 0 :=
        getD_set_self_generic _ _ _ _ hp1
      rw [hg] at e2
      simp only [getRoute] at *
      omega
    · have hg : ((getRoute sol r1).set p1 ((getRoute sol r1).getD p2 0)).getD p2 0 =
          (getRoute sol r1).getD p2 0 :=
        getD_set_ne_generic _ _ _ _ _ hp
      rw [hg] at e2
      simp only [getRoute] at *
      omega
  · simp only [swapMove, if_neg hr]
    have hlen2 : r2 < (sol.set r1 ((getRoute sol r1).set p1 ((getRoute sol r2).getD p2 0))).length := by
      simpa using h2
    have hset2 := count_flatten_set c
      (sol.set r1 ((getRoute sol r1).set p1 ((getRoute sol r2).getD p2 0))) r2 hlen2
      ((getRoute sol r2).set p2 ((getRoute sol r1).getD p1 0))
    have hget : (sol.set r1 ((getRoute sol r1).set p1 ((getRoute sol r2).getD p2 0))).getD r2 []
        = sol.getD r2 [] :=
      getD_set_ne_generic _ _ _ _ _ hr
    have hset1 := count_flatten_set c sol r1 h1
      ((getRoute sol r1).set p1 ((getRoute sol r2).getD p2 0))
    have e1 := count_set_list (getRoute sol r1) p1 hp1 ((getRoute sol r2).getD p2 0) c
    have e2 := count_set_list (getRoute sol r2) p2 hp2 ((getRoute sol r1).getD p1 0) c
    rw [hget] at hset2
    simp only [getRoute] at *
    omega

theorem twoOpt_count (sol : Solution) (r p1 p2 : Nat) (h : r < sol.length)
    (hle : p1 ≤ p2) (c : Nat) :
    (twoOpt sol r p1 p2).flatten.count c = sol.flatten.count c := by
  simp only [twoOpt]
  have hset := count_flatten_set c sol r h
    ((getRoute sol r).take p1 ++ (((getRoute sol r).drop p1).take (p2 + 1 - p1)).reverse ++
      (getRoute sol r).drop (p2 + 1))
  have hseg := count_twoOptSeg (getRoute sol r) p1 p2 hle c
  simp only [getRoute] at *
  omega

theorem mem_routeIdxPairs_bounds (sol : Solution) (a : Nat × Nat)
    (h : a ∈ routeIdxPairs sol) :
    a.1 < sol.length ∧ a.2 < (getRoute sol a.1).length := by
  rw [routeIdxPairs] at h
  rcases List.mem_flatMap.1 h with ⟨r, hr, h⟩
  obtain ⟨p, hp, rfl⟩ := List.mem_map.1 h
  exact ⟨List.mem_range.1 hr, List.mem_range.1 hp⟩

theorem mem_insertTargets_bounds (sol : Solution) (a : Nat × Nat)
    (h : a ∈ insertTargets sol) : a.1 < sol.length := by
  rw [insertTargets] at h
  rcases List.mem_flatMap.1 h with ⟨r, hr, h⟩
  obtain ⟨p, hp, rfl⟩ := List.mem_map.1 h
  exact List.mem_range.1 hr

theorem mem_neighbors_spec (sol s' : Solution) (h : s' ∈ neighbors sol) :
    (∀ c, s'.flatten.count c = sol.flatten.count c) ∧ s'.length = sol.length := by
  rw [neighbors] at h
  rcases List.mem_append.1 h with h12 | h3
  · rcases List.mem_append.1 h12 with h | h
    · rcases List.mem_flatMap.1 h with ⟨a, ha, h⟩
      obtain ⟨b, hb, rfl⟩ := List.mem_map.1 h
      obtain ⟨ha1, ha2⟩ := mem_routeIdxPairs_bounds sol a ha
      have hb1 := mem_insertTargets_bounds sol b hb
      exact ⟨fun c => relocate_count sol a.1 a.2 b.1 b.2 ha1 ha2 hb1 c,
        relocate_length sol a.1 a.2 b.1 b.2⟩
    · rcases List.mem_flatMap.1 h with ⟨a, ha, h⟩
      obtain ⟨b, hb, rfl⟩ := List.mem_map.1 h
      obtain ⟨ha1, ha2⟩ := mem_routeIdxPairs_bounds sol a ha
      obtain ⟨hb1, hb2⟩ := mem_routeIdxPairs_bounds sol b hb
      exact ⟨fun c => swapMove_count sol a.1 a.2 b.1 b.2 ha1 ha2 hb1 hb2 c,
        swapMove_length sol a.1 a.2 b.1 b.2⟩
  · rcases List.mem_flatMap.1 h3 with ⟨r, hr, h⟩
    rcases List.mem_flatMap.1 h with ⟨p1, hp1, h⟩
    obtain ⟨k, hk, rfl⟩ := List.mem_map.1 h
    exact ⟨fun c => twoOpt_count sol r p1 (p1 + k) (List.mem_range.1 hr) (by omega) c,
      twoOpt_length sol r p1 (p1 + k)⟩

theorem improveStep_spec (data : VrpData) (sol s' : Solution)
    (h : improveStep data sol = some s') :
    s' ∈ neighbors sol ∧
      feasibleB data.demands data.vehicle_capacities s' = true ∧
      totalCost data.distance_matrix data.depot_index s' <
        totalCost data.distance_matrix data.depot_index sol := by
  rw [improveStep] at h
  have hm := List.mem_of_find?_eq_some h
  have hp := List.find?_some h
  simp only [Bool.and_eq_true, decide_eq_true_eq] at hp
  exact ⟨hm, hp.1, hp.2⟩

theorem improve_cost (data : VrpData) :
    ∀ (fuel : Nat) (sol : Solution),
      totalCost data.distance_matrix data.depot_index (improve data fuel sol) ≤
        totalCost data.distance_matrix data.depot_index sol := by
  intro fuel
  induction fuel with
  | zero => intro sol; simp [improve]
  | succ fuel ih =>
    intro sol
    rw [improve]
    cases hs : improveStep data sol with
    | none => exact le_refl _
    | some s =>
      exact le_trans (ih s) (le_of_lt (improveStep_spec data sol s hs).2.2)

theorem improve_feasible (data : VrpData) :
    ∀ (fuel : Nat) (sol : Solution),
      feasibleB data.demands data.vehicle_capacities sol = true →
      feasibleB data.demands data.vehicle_capacities (improve data fuel sol) = true := by
  intro fuel
  induction fuel with
  | zero => intro sol h; simpa [improve] using h
  | succ fuel ih =>
    intro sol h
    rw [improve]
    cases hs : improveStep data sol with
    | none => exact h
    | some s => exact ih s (improveStep_spec data sol s hs).2.1

theorem improve_count (data : VrpData) :
    ∀ (fuel : Nat) (sol : Solution) (c : Nat),
      (improve data fuel sol).flatten.count c = sol.flatten.count c := by
  intro fuel
  induction fuel with
  | zero => intro sol c; simp [improve]
  | succ fuel ih =>
    intro sol c
    rw [improve]
    cases hs : improveStep data sol with
    | none => rfl
    | some s =>
      rw [ih s c]
      exact (mem_neighbors_spec sol s (improveStep_spec data sol s hs).1).1 c

theorem improve_length (data : VrpData) :
    ∀ (fuel : Nat) (sol : Solution),
      (improve data fuel sol).length = sol.length := by
  intro fuel
  induction fuel with
  | zero => intro sol; simp [improve]
  | succ fuel ih =>
    intro sol
    rw [improve]
    cases hs : improveStep data sol with
    | none => rfl
    | some s =>
      rw [ih s]
      exact (mem_neighbors_spec sol s (improveStep_spec data sol s hs).1).2

theorem count_range (a n : Nat) : (List.range n).count a = if a < n then 1 else 0 := by
  induction n with
  | zero => simp
  | succ n ih =>
    rw [List.range_succ, List.count_append, ih, List.count_singleton']
    split_ifs <;> omega

theorem mem_customersOf (n depot i : Nat) :
    i ∈ customersOf n depot ↔ i < n ∧ i ≠ depot := by
  simp [customersOf]

theorem count_customersOf (n depot i : Nat) (h1 : i < n) (h2 : i ≠ depot) :
    (customersOf n depot).count i = 1 := by
  rw [customersOf, List.count_filter (by simp [h2]), count_range, if_pos h1]

theorem customersOf_ne_nil (n depot : Nat) (h : 2 ≤ n) : customersOf n depot ≠ [] := by
  by_cases hd : depot = 0
  · exact List.ne_nil_of_mem ((mem_customersOf n depot 1).2 ⟨by omega, by omega⟩)
  · exact List.ne_nil_of_mem ((mem_customersOf n depot 0).2 ⟨by omega, by omega⟩)

theorem getD_map_range_generic {β : Type} (f : Nat → β) (n v : Nat) (hv : v < n) (d : β) :
    ((List.range n).map f).getD v d = f v := by
  rw [List.getD_eq_getElem _ _ (by simpa using hv)]
  simp

theorem map_getD_range_comp {α β : Type} (L : List α) (d : α) (f : α → β) :
    (List.range L.length).map (fun v => f (L.getD v d)) = L.map f := by
  apply List.ext_getElem (by simp)
  intro n h1 h2
  have hn : n < L.length := by simpa using h2
  simp only [List.getElem_map, List.getElem_range]
  rw [List.getD_eq_getElem _ _ hn]

theorem filter_flatten_map (p : Nat → Bool) :
    ∀ (L : Solution), (L.map (List.filter p)).flatten = L.flatten.filter p := by
  intro L
  induction L with
  | nil => simp
  | cons a t ih => simp only [List.map_cons, List.flatten_cons, List.filter_append, ih]

theorem routeLoad_append (demands : List Int) (a b : List Nat) :
    routeLoad demands (a ++ b) = routeLoad demands a + routeLoad demands b := by
  simp [routeLoad]

theorem routeLoad_flatten (demands : List Int) :
    ∀ (L : Solution), routeLoad demands L.flatten = (L.map (routeLoad demands)).sum := by
  intro L
  induction L with
  | nil => simp [routeLoad]
  | cons a t ih => simp [routeLoad_append, ih]

theorem routeLoad_perm (demands : List Int) (l1 l2 : List Nat) (h : List.Perm l1 l2) :
    routeLoad demands l1 = routeLoad demands l2 :=
  (h.map _).sum_eq

theorem zip_all_sum_le (demands : List Int) :
    ∀ (sol : Solution) (caps : List Int),
      sol.length = caps.length → feasibleB demands caps sol = true →
      (sol.map (routeLoad demands)).sum ≤ caps.sum := by
  intro sol
  induction sol with
  | nil =>
    intro caps hlen _
    cases caps with
    | nil => simp
    | cons cp cps => simp at hlen
  | cons r t ih =>
    intro caps hlen hf
    cases caps with
    | nil => simp at hlen
    | cons cp cps =>
      simp only [feasibleB, List.zip_cons_cons, List.all_cons, Bool.and_eq_true,
        decide_eq_true_eq] at hf
      simp only [List.map_cons, List.sum_cons]
      have hrec := ih cps (by simpa using hlen) hf.2
      linarith [hf.1, hrec]

theorem feasibleB_getD (demands : List Int) :
    ∀ (sol : Solution) (caps : List Int),
      feasibleB demands caps sol = true →
      ∀ v, v < sol.length → v < caps.length →
      routeLoad demands (sol.getD v []) ≤ caps.getD v 0 := by
  intro sol
  induction sol with
  | nil => intro caps _ v hv _; simp at hv
  | cons r t ih =>
    intro caps hf v hv hvc
    cases caps with
    | nil => simp at hvc
    | cons cp cps =>
      simp only [feasibleB, List.zip_cons_cons, List.all_cons, Bool.and_eq_true,
        decide_eq_true_eq] at hf
      cases v with
      | zero => simpa using hf.1
      | succ v =>
        simpa [List.getD_cons_succ] using
          ih cps hf.2 v (by simpa using hv) (by simpa using hvc)

theorem routeDistance_spec (dist : List (List Int)) (depot : Nat) :
    ∀ (route : List Nat) (cur : Nat),
      routeDistance dist depot cur route =
        (((cur :: route).zip (route ++ [depot])).map (fun p => arcCost dist p.1 p.2)).sum := by
  intro route
  induction route with
  | nil => intro cur; simp [routeDistance]
  | cons c rest ih =>
    intro cur
    simp only [routeDistance, List.cons_append, List.zip_cons_cons, List.map_cons,
      List.sum_cons]
    rw [ih c]

theorem gsd_routes_length (data : VrpData) (sol : Solution) :
    (get_solution_details data (some sol)).routes.length = data.num_vehicles := by
  simp [get_solution_details]

theorem gsd_objective (data : VrpData) (sol : Solution) :
    (get_solution_details data (some sol)).objective_value =
      some ((totalCost data.distance_matrix data.depot_index sol : ℚ) / 1000) := rfl

theorem gsd_total_load (data : VrpData) (sol : Solution) (v : Nat)
    (hv : v < data.num_vehicles) :
    ((get_solution_details data (some sol)).routes.getD v default).total_load =
      routeLoad data.demands (getRoute sol v) := by
  simp only [get_solution_details]
  rw [getD_map_range_generic _ data.num_vehicles v hv default]

theorem gsd_total_distance (data : VrpData) (sol : Solution) (v : Nat)
    (hv : v < data.num_vehicles) :
    ((get_solution_details data (some sol)).routes.getD v default).total_distance =
      ((routeDistance data.distance_matrix data.depot_index data.depot_index
        (getRoute sol v) : Int) : ℚ) / 1000 := by
  simp only [get_solution_details]
  rw [getD_map_range_generic _ data.num_vehicles v hv default]

theorem gsd_route_nodes (data : VrpData) (sol : Solution) (v : Nat)
    (hv : v < data.num_vehicles) :
    ((get_solution_details data (some sol)).routes.getD v default).route_nodes =
      (getRoute sol v).filter (fun nd => nd ≠ data.depot_index) := by
  simp only [get_solution_details]
  rw [getD_map_range_generic _ data.num_vehicles v hv default]

theorem handle_ok_optimal (rng : Nat → Nat → Int) (fuel : Nat) (req : VrpRequest)
    (resp : VrpResponse)
    (h : handle_vrp_request rng fuel req = .ok resp)
    (hst : resp.solution_status = "OPTIMAL") :
    ∃ ds sol₀,
      buildDemands (req.customer_data.length + 1) req.customer_data
        (List.replicate (req.customer_data.length + 1) 0) = .ok ds ∧
      buildInitialSolution (mkData rng req ds) = some sol₀ ∧
      resp = get_solution_details (mkData rng req ds)
        (some (improve (mkData rng req ds) fuel sol₀)) := by
  rw [handle_vrp_request] at h
  simp only [handleCore] at h
  cases hb : buildDemands (req.customer_data.length + 1) req.customer_data
      (List.replicate (req.customer_data.length + 1) 0) with
  | error l =>
    rw [hb] at h
    exact absurd h (by simp)
  | ok ds =>
    rw [hb] at h
    have hresp : resp = get_solution_details (mkData rng req ds)
        (solve_vrp fuel (mkData rng req ds)) := by
      simp only [HandleResult.ok.injEq] at h
      exact h.symm
    cases hs : buildInitialSolution (mkData rng req ds) with
    | none =>
      exfalso
      rw [hresp, solve_vrp, hs] at hst
      have hns : (get_solution_details (mkData rng req ds)
          (Option.map (improve (mkData rng req ds) fuel) none)).solution_status =
          "NO_SOLUTION" := rfl
      rw [hns] at hst
      exact absurd hst (by decide)
    | some sol₀ =>
      refine ⟨ds, sol₀, rfl, hs, ?_⟩
      rw [hresp, solve_vrp, hs]
      rfl

/-- C1 counterexample: with depot_index 2 and two customers (N - 1 = 2), the
response is OPTIMAL yet location index 2 — which lies in [1, N-1] — occurs
in no route_nodes list at all (the projector always skips the configured
depot), so the claimed coverage of [1, N-1] fails. -/
theorem c1_partition_cx :
    reqDepot2.customer_data.length = 2 ∧
    (handle_vrp_request rngConst 5 reqDepot2).respOf.solution_status = "OPTIMAL" ∧
    ((handle_vrp_request rngConst 5 reqDepot2).respOf.routes.map
      RouteInfo.route_nodes).flatten.count 2 = 0 :=
  ⟨rfl, rfl, rfl⟩

/-- C1 (amended): in every OPTIMAL response, every location index of
[0, N-1] other than the configured depot_index appears in the route_nodes
lists exactly once overall, and the depot_index itself never appears; for
the default depot_index 0 the covered set is exactly [1, N-1]. -/
theorem c1_partition_amended (rng : Nat → Nat → Int) (fuel : Nat) (req : VrpRequest)
    (resp : VrpResponse)
    (h : handle_vrp_request rng fuel req = .ok resp)
    (hst : resp.solution_status = "OPTIMAL") :
    (∀ i, i < req.customer_data.length + 1 → i ≠ req.depot_index →
      (resp.routes.map RouteInfo.route_nodes).flatten.count i = 1) ∧
    (resp.routes.map RouteInfo.route_nodes).flatten.count req.depot_index = 0 := by
  obtain ⟨ds, sol₀, hb, hs, hresp⟩ := handle_ok_optimal rng fuel req resp h hst
  obtain ⟨hperm0, hlen0⟩ := buildInitialSolution_spec _ _ hs
  simp only [mkData] at hperm0 hlen0
  have hlen : (improve (mkData rng req ds) fuel sol₀).length =
      req.vehicle_capacities.length := by
    rw [improve_length]
    exact hlen0
  have hperm : List.Perm (improve (mkData rng req ds) fuel sol₀).flatten
      (customersOf (req.customer_data.length + 1) req.depot_index) := by
    rw [List.perm_iff_count]
    intro a
    rw [improve_count]
    exact hperm0.count_eq a
  have hnv : (mkData rng req ds).num_vehicles =
      (improve (mkData rng req ds) fuel sol₀).length := by
    simp only [mkData]
    exact hlen.symm
  have hroutes : resp.routes.map RouteInfo.route_nodes =
      (improve (mkData rng req ds) fuel sol₀).map
        (List.filter (fun nd => nd ≠ req.depot_index)) := by
    rw [hresp]
    apply List.ext_getElem
    · simp only [List.length_map, gsd_routes_length]
      exact hnv
    · intro n h1 h2
      have hn2 : n < (improve (mkData rng req ds) fuel sol₀).length := by
        simpa using h2
      have hn1 : n < (mkData rng req ds).num_vehicles := by
        rw [hnv]
        exact hn2
      rw [List.getElem_map, List.getElem_map]
      rw [← List.getD_eq_getElem _ default (by simpa [gsd_routes_length] using h1)]
      rw [gsd_route_nodes _ _ n hn1]
      rw [← List.getD_eq_getElem _ ([] : List Nat) hn2]
      simp only [getRoute, mkData]
  rw [hroutes, filter_flatten_map]
  constructor
  · intro i hi hne
    rw [List.count_filter (by simp [hne]), hperm.count_eq i,
      count_customersOf _ _ _ hi hne]
  · apply List.count_eq_zero_of_not_mem
    intro hmem
    rw [List.mem_filter] at hmem
    simp at hmem

/-- Witness for C1 (amended) on the plain three-customer request: customers
1 is covered once and the depot 0 never appears. -/
theorem c1_partition_amended_witness :
    (((handle_vrp_request rngConst 5 reqPlain).respOf.routes.map
      RouteInfo.route_nodes).flatten.count 1 = 1) ∧
    (((handle_vrp_request rngConst 5 reqPlain).respOf.routes.map
      RouteInfo.route_nodes).flatten.count reqPlain.depot_index = 0) :=
  ⟨(c1_partition_amended rngConst 5 reqPlain _ rfl rfl).1 1 (by decide) (by decide),
    (c1_partition_amended rngConst 5 reqPlain _ rfl rfl).2⟩

/-- C2 counterexample: the zero-customer request with the single capacity -1
is answered OPTIMAL with one empty route of total_load 0, and 0 exceeds the
vehicle's capacity -1, so the claimed bound fails. -/
theorem c2_capacity_cx :
    (handle_vrp_request rngConst 5 reqNegCap).respOf.solution_status = "OPTIMAL" ∧
    (handle_vrp_request rngConst 5 reqNegCap).respOf.routes.map RouteInfo.total_load
      = [0] ∧
    reqNegCap.vehicle_capacities = [-1] ∧ ¬((0 : Int) ≤ -1) :=
  ⟨rfl, rfl, rfl, by decide⟩

/-- C2 (amended): provided every vehicle capacity in the request is
non-negative, each route of an OPTIMAL response has total_load at most the
capacity of its vehicle (capacities matched positionally). -/
theorem c2_capacity_amended (rng : Nat → Nat → Int) (fuel : Nat) (req : VrpRequest)
    (resp : VrpResponse)
    (h : handle_vrp_request rng fuel req = .ok resp)
    (hst : resp.solution_status = "OPTIMAL")
    (hcaps : ∀ cp ∈ req.vehicle_capacities, 0 ≤ cp) :
    ∀ v, v < resp.routes.length →
      (resp.routes.getD v default).total_load ≤ req.vehicle_capacities.getD v 0 := by
  obtain ⟨ds, sol₀, hb, hs, hresp⟩ := handle_ok_optimal rng fuel req resp h hst
  obtain ⟨hperm0, hlen0⟩ := buildInitialSolution_spec _ _ hs
  simp only [mkData] at hlen0
  intro v hv
  have hvnv : v < (mkData rng req ds).num_vehicles := by
    rw [hresp] at hv
    simpa [gsd_routes_length] using hv
  have hvcaps : v < req.vehicle_capacities.length := by
    simpa [mkData] using hvnv
  have hfeas : feasibleB (mkData rng req ds).demands
      (mkData rng req ds).vehicle_capacities
      (improve (mkData rng req ds) fuel sol₀) = true :=
    improve_feasible _ fuel sol₀
      (buildInitialSolution_feasible _ _ hs (by simpa [mkData] using hcaps))
  have hvsol : v < (improve (mkData rng req ds) fuel sol₀).length := by
    rw [improve_length, hlen0]
    exact hvcaps
  have hload := feasibleB_getD (mkData rng req ds).demands _ _ hfeas v hvsol
    (by simpa [mkData] using hvcaps)
  rw [hresp, gsd_total_load _ _ v hvnv]
  simp only [getRoute, mkData]
  simp only [mkData] at hload
  exact hload

/-- Witness for C2 (amended) on the plain request: the single route's load
is within capacity 10. -/
theorem c2_capacity_amended_witness :
    ((handle_vrp_request rngConst 5 reqPlain).respOf.routes.getD 0 default).total_load ≤
      reqPlain.vehicle_capacities.getD 0 0 :=
  c2_capacity_amended rngConst 5 reqPlain _ rfl rfl (by decide) 0 (by decide)

/-- C3 counterexample: with capacities [-5, 5] the total demand 3 exceeds
the total fleet capacity 0, yet the response is OPTIMAL with two route
entries rather than NO_SOLUTION with an empty list. -/
theorem c3_infeasible_cx :
    buildDemands 2 [⟨1, 3⟩] (List.replicate 2 0) = .ok [0, 3] ∧
    routeLoad [0, 3] (customersOf 2 0) = 3 ∧
    reqOverDemand.vehicle_capacities.sum = 0 ∧
    (handle_vrp_request rngConst 5 reqOverDemand).respOf.solution_status = "OPTIMAL" ∧
    (handle_vrp_request rngConst 5 reqOverDemand).respOf.routes.length = 2 :=
  ⟨rfl, rfl, rfl, rfl, rfl⟩

/-- C3 (amended): provided every vehicle capacity is non-negative, a total
customer demand exceeding the total fleet capacity forces the solver to
produce no solution, and the response is then NO_SOLUTION with an empty
routes list (the projector emits that shape whenever the solver returns
nothing). -/
theorem c3_infeasible_amended (rng : Nat → Nat → Int) (fuel : Nat) (req : VrpRequest)
    (resp : VrpResponse) (ds : List Int)
    (hd : buildDemands (req.customer_data.length + 1) req.customer_data
      (List.replicate (req.customer_data.length + 1) 0) = .ok ds)
    (hcaps : ∀ cp ∈ req.vehicle_capacities, 0 ≤ cp)
    (hsum : req.vehicle_capacities.sum <
      routeLoad ds (customersOf (req.customer_data.length + 1) req.depot_index))
    (h : handle_vrp_request rng fuel req = .ok resp) :
    resp.solution_status = "NO_SOLUTION" ∧ resp.routes = [] := by
  rw [handle_vrp_request] at h
  simp only [handleCore] at h
  rw [hd] at h
  have hresp : resp = get_solution_details (mkData rng req ds)
      (solve_vrp fuel (mkData rng req ds)) := by
    simp only [HandleResult.ok.injEq] at h
    exact h.symm
  have hnone : buildInitialSolution (mkData rng req ds) = none := by
    cases hs : buildInitialSolution (mkData rng req ds) with
    | none => rfl
    | some sol₀ =>
      exfalso
      obtain ⟨hperm, hlen⟩ := buildInitialSolution_spec _ _ hs
      simp only [mkData] at hperm hlen
      have hfeas : feasibleB ds req.vehicle_capacities sol₀ = true :=
        buildInitialSolution_feasible _ _ hs (by simpa [mkData] using hcaps)
      have hle := zip_all_sum_le ds sol₀ req.vehicle_capacities hlen hfeas
      have heq : routeLoad ds (customersOf (req.customer_data.length + 1) req.depot_index)
          = (sol₀.map (routeLoad ds)).sum := by
        rw [← routeLoad_flatten]
        exact (routeLoad_perm ds _ _ hperm).symm
      rw [heq] at hsum
      linarith
  rw [hresp, solve_vrp, hnone]
  exact ⟨rfl, rfl⟩

/-- Witness for C3 (amended): two demand-6 customers against one capacity-10
vehicle yield NO_SOLUTION with no routes. -/
theorem c3_infeasible_amended_witness :
    (handle_vrp_request rngConst 5 reqInfeasible).respOf.solution_status =
      "NO_SOLUTION" ∧
    (handle_vrp_request rngConst 5 reqInfeasible).respOf.routes = [] :=
  c3_infeasible_amended rngConst 5 reqInfeasible
    ((handle_vrp_request rngConst 5 reqInfeasible).respOf) [0, 6, 6] rfl
    (by decide) (by decide) rfl

/-- C5 counterexample: the request with one customer and zero vehicles is
not rejected with an InvalidInput error response; it is answered 200 with
solution_status NO_SOLUTION. -/
theorem c5_validation_cx :
    (handle_vrp_request rngConst 5 reqNoVehicles).isOk = true ∧
    (handle_vrp_request rngConst 5 reqNoVehicles).isError500 = false ∧
    (handle_vrp_request rngConst 5 reqNoVehicles).respOf.solution_status =
      "NO_SOLUTION" :=
  ⟨rfl, rfl, rfl⟩

/-- C5 (amended): the handler performs no vehicle-count or capacity
validation; a request with an empty fleet and at least one (valid) customer
flows through to the solver and is answered 200 with NO_SOLUTION and no
routes, never with an InvalidInput error. -/
theorem c5_validation_amended (rng : Nat → Nat → Int) (fuel : Nat) (req : VrpRequest)
    (hcapsnil : req.vehicle_capacities = [])
    (hne : req.customer_data ≠ [])
    (hvalid : ∀ r ∈ req.customer_data, 0 < r.locationID ∧
      r.locationID < ((req.customer_data.length + 1 : Nat) : Int)) :
    (handle_vrp_request rng fuel req).isOk = true ∧
    (handle_vrp_request rng fuel req).respOf.solution_status = "NO_SOLUTION" ∧
    (handle_vrp_request rng fuel req).respOf.routes = [] := by
  have hok := buildDemands_ok_of_valid (req.customer_data.length + 1) req.customer_data
    (List.replicate (req.customer_data.length + 1) 0) hvalid
  have hn2 : 2 ≤ req.customer_data.length + 1 := by
    have := List.length_pos.2 hne
    omega
  have hnone : buildInitialSolution (mkData rng req
      (req.customer_data.foldl (fun d r => d.set r.locationID.toNat r.demand)
        (List.replicate (req.customer_data.length + 1) 0))) = none := by
    rw [buildInitialSolution]
    simp only [mkData]
    rw [hcapsnil]
    simp only [buildAll]
    rw [if_neg ?_]
    rw [List.isEmpty_iff]
    exact customersOf_ne_nil _ _ hn2
  have hfull : handle_vrp_request rng fuel req = .ok (get_solution_details
      (mkData rng req (req.customer_data.foldl
        (fun d r => d.set r.locationID.toNat r.demand)
        (List.replicate (req.customer_data.length + 1) 0))) none) := by
    rw [handle_vrp_request]
    simp only [handleCore]
    rw [hok]
    simp only [solve_vrp, hnone, Option.map_none']
  rw [hfull]
  exact ⟨rfl, rfl, rfl⟩

/-- Witness for C5 (amended): a single valid customer with an empty fleet is
answered 200 NO_SOLUTION with no routes. -/
theorem c5_validation_amended_witness :
    (handle_vrp_request rngConst 3 ⟨[⟨1, 2⟩], [], 0⟩).isOk = true ∧
    (handle_vrp_request rngConst 3 ⟨[⟨1, 2⟩], [], 0⟩).respOf.solution_status =
      "NO_SOLUTION" ∧
    (handle_vrp_request rngConst 3 ⟨[⟨1, 2⟩], [], 0⟩).respOf.routes = [] :=
  c5_validation_amended rngConst 3 ⟨[⟨1, 2⟩], [], 0⟩ rfl (by decide) (by decide)

/-- C7 counterexample: with the single capacity -1 and no customers the
solver returns the solution with one empty route, which is infeasible (its
load 0 exceeds the capacity -1), refuting that the returned solution is
always feasible. -/
theorem c7_local_search_cx :
    solve_vrp 5 dataNegCap = some [[]] ∧
    feasibleB dataNegCap.demands dataNegCap.vehicle_capacities [[]] = false :=
  ⟨rfl, rfl⟩

/-- C7 (amended): the local-search result never costs more than the
construction seed (unconditionally, after any number of accepted moves,
each accepted move strictly decreasing cost); it is capacity-feasible
whenever every vehicle capacity is non-negative; and it always covers
exactly the customers the seed covers. -/
theorem c7_local_search_amended (data : VrpData) (fuel : Nat) (sol₀ : Solution)
    (h : buildInitialSolution data = some sol₀) :
    totalCost data.distance_matrix data.depot_index (improve data fuel sol₀) ≤
      totalCost data.distance_matrix data.depot_index sol₀ ∧
    ((∀ cp ∈ data.vehicle_capacities, 0 ≤ cp) →
      feasibleB data.demands data.vehicle_capacities (improve data fuel sol₀) = true) ∧
    (∀ c, (improve data fuel sol₀).flatten.count c = sol₀.flatten.count c) :=
  ⟨improve_cost data fuel sol₀,
    fun hc => improve_feasible data fuel sol₀
      (buildInitialSolution_feasible data sol₀ h hc),
    fun c => improve_count data fuel sol₀ c⟩

/-- Witness for C7 (amended) on the plain three-customer model. -/
theorem c7_local_search_amended_witness :
    totalCost dataPlain.distance_matrix dataPlain.depot_index
      (improve dataPlain 5 [[1, 2, 3]]) ≤
      totalCost dataPlain.distance_matrix dataPlain.depot_index [[1, 2, 3]] ∧
    feasibleB dataPlain.demands dataPlain.vehicle_capacities
      (improve dataPlain 5 [[1, 2, 3]]) = true ∧
    (improve dataPlain 5 [[1, 2, 3]]).flatten.count 1 =
      ([[1, 2, 3]] : Solution).flatten.count 1 :=
  ⟨(c7_local_search_amended dataPlain 5 [[1, 2, 3]] rfl).1,
    (c7_local_search_amended dataPlain 5 [[1, 2, 3]] rfl).2.1 (by decide),
    (c7_local_search_amended dataPlain 5 [[1, 2, 3]] rfl).2.2 1⟩

/-- C8: in every OPTIMAL response each route's total_distance equals the
spec-side arc sum of its route_nodes (depot, customers in order, depot)
divided by exactly 1000, and objective_value equals the sum of those arc
sums divided by exactly 1000 (the float division of the source modelled as
exact rational division). -/
theorem c8_scaling (rng : Nat → Nat → Int) (fuel : Nat) (req : VrpRequest)
    (resp : VrpResponse)
    (h : handle_vrp_request rng fuel req = .ok resp)
    (hst : resp.solution_status = "OPTIMAL") :
    (∀ v, v < resp.routes.length →
      (resp.routes.getD v default).total_distance =
        ((specArcSum (create_distance_matrix rng (req.customer_data.length + 1))
          req.depot_index ((resp.routes.getD v default).route_nodes) : Int) : ℚ) / 1000) ∧
    resp.objective_value = some
      ((((resp.routes.map (fun ri => specArcSum
        (create_distance_matrix rng (req.customer_data.length + 1))
        req.depot_index ri.route_nodes)).sum : Int) : ℚ) / 1000) := by
  obtain ⟨ds, sol₀, hb, hs, hresp⟩ := handle_ok_optimal rng fuel req resp h hst
  obtain ⟨hperm0, hlen0⟩ := buildInitialSolution_spec _ _ hs
  simp only [mkData] at hperm0 hlen0
  have hperm : List.Perm (improve (mkData rng req ds) fuel sol₀).flatten
      (customersOf (req.customer_data.length + 1) req.depot_index) := by
    rw [List.perm_iff_count]
    intro a
    rw [improve_count]
    exact hperm0.count_eq a
  have hnodep : ∀ x ∈ (improve (mkData rng req ds) fuel sol₀).flatten,
      x ≠ req.depot_index := by
    intro x hx
    exact ((mem_customersOf _ _ x).1 (hperm.mem_iff.1 hx)).2
  have hfilter : ∀ v, v < (improve (mkData rng req ds) fuel sol₀).length →
      (getRoute (improve (mkData rng req ds) fuel sol₀) v).filter
        (fun nd => nd ≠ req.depot_index) =
        getRoute (improve (mkData rng req ds) fuel sol₀) v := by
    intro v hv
    apply List.filter_eq_self.2
    intro a ha
    rw [decide_eq_true_eq]
    apply hnodep
    apply List.mem_flatten.2
    refine ⟨getRoute (improve (mkData rng req ds) fuel sol₀) v, ?_, ha⟩
    rw [getRoute, List.getD_eq_getElem _ _ hv]
    exact List.getElem_mem hv
  have hdist : ∀ v,
      routeDistance (create_distance_matrix rng (req.customer_data.length + 1))
        req.depot_index req.depot_index
        (getRoute (improve (mkData rng req ds) fuel sol₀) v) =
      specArcSum (create_distance_matrix rng (req.customer_data.length + 1))
        req.depot_index (getRoute (improve (mkData rng req ds) fuel sol₀) v) := by
    intro v
    rw [routeDistance_spec, specArcSum]
  simp only [mkData] at hfilter hdist
  constructor
  · intro v hv
    have hvnv : v < (mkData rng req ds).num_vehicles := by
      rw [hresp] at hv
      simpa [gsd_routes_length] using hv
    have hvlen : v < (improve (mkData rng req ds) fuel sol₀).length := by
      rw [improve_length, hlen0]
      simpa [mkData] using hvnv
    rw [hresp, gsd_total_distance _ _ v hvnv, gsd_route_nodes _ _ v hvnv]
    simp only [mkData]
    rw [hfilter v hvlen, hdist v]
  · rw [hresp, gsd_objective]
    have hlist : (get_solution_details (mkData rng req ds)
        (some (improve (mkData rng req ds) fuel sol₀))).routes.map
          (fun ri => specArcSum (create_distance_matrix rng (req.customer_data.length + 1))
            req.depot_index ri.route_nodes) =
        (improve (mkData rng req ds) fuel sol₀).map
          (routeDistance (create_distance_matrix rng (req.customer_data.length + 1))
            req.depot_index req.depot_index) := by
      apply List.ext_getElem
      · simp only [List.length_map, gsd_routes_length, mkData]
        rw [improve_length, hlen0]
      · intro n h1 h2
        have hn2 : n < (improve (mkData rng req ds) fuel sol₀).length := by
          simpa using h2
        have hn1 : n < (mkData rng req ds).num_vehicles := by
          simp only [mkData]
          rw [← hlen0, ← improve_length (mkData rng req ds) fuel sol₀]
          exact hn2
        simp only [mkData] at hn2
        rw [List.getElem_map, List.getElem_map]
        rw [← List.getD_eq_getElem _ default (by simpa [gsd_routes_length] using h1)]
        rw [gsd_route_nodes _ _ n hn1]
        simp only [mkData]
        rw [hfilter n hn2]
        rw [← List.getD_eq_getElem _ ([] : List Nat) hn2]
        exact (hdist n).symm
    rw [hlist]
    simp only [mkData]
    rfl

/-- Witness for C8 on the two-vehicle request. -/
theorem c8_scaling_witness :
    ((handle_vrp_request rngConst 5 reqTwoVeh).respOf.routes.getD 0 default).total_distance =
      ((specArcSum (create_distance_matrix rngConst (reqTwoVeh.customer_data.length + 1))
        reqTwoVeh.depot_index
        (((handle_vrp_request rngConst 5 reqTwoVeh).respOf.routes.getD 0
          default).route_nodes) : Int) : ℚ) / 1000 ∧
    (handle_vrp_request rngConst 5 reqTwoVeh).respOf.objective_value = some
      (((((handle_vrp_request rngConst 5 reqTwoVeh).respOf.routes.map
        (fun ri => specArcSum
          (create_distance_matrix rngConst (reqTwoVeh.customer_data.length + 1))
          reqTwoVeh.depot_index ri.route_nodes)).sum : Int) : ℚ) / 1000) :=
  ⟨(c8_scaling rngConst 5 reqTwoVeh _ rfl rfl).1 0 (by decide),
    (c8_scaling rngConst 5 reqTwoVeh _ rfl rfl).2⟩

end VRP
